import Mathlib

/-!
Verification of the ReShare-Hub backend (`app.py`): a shallow embedding of the
response-normalization pipeline (markdown cleaning, reusability verdict
extraction, title/description splitting, category/subcategory extraction) and
of the two POST endpoints `/generate-content` and `/check-reusability`,
together with theorems settling the specification's claims.

Strings are modelled at the level of Unicode code points (`List Char`), which
matches Python `str` indexing/slicing.  Character-class predicates
(whitespace, word characters, case mapping, title-casing) are modelled for the
ASCII range, which is the range exercised by every prompt and every literal in
the source.
-/

namespace ReShare

/-- ASCII whitespace as recognized by Python's `str.strip()` and by the regex
class `\s`: space, tab, newline, carriage return, vertical tab, form feed. -/
def pyIsSpace (c : Char) : Bool :=
  c = ' ' || c = '\t' || c = '\n' || c = '\r' || c = '\x0b' || c = '\x0c'

/-- A regex word character (`\w`, relevant to the `\b` boundaries in
`r'\byes\b'`): ASCII letter, digit, or underscore. -/
def isWordChar (c : Char) : Bool := c.isAlphanum || c = '_'

/-- Left part of Python's `str.strip()`: drop leading whitespace. -/
def lstripChars (l : List Char) : List Char := l.dropWhile pyIsSpace

/-- Right part of Python's `str.strip()`: drop trailing whitespace. -/
def rstripChars : List Char → List Char
  | [] => []
  | c :: cs =>
    match rstripChars cs with
    | [] => if pyIsSpace c then [] else [c]
    | r => c :: r

/-- Python's `str.strip()` on code points. -/
def stripChars (l : List Char) : List Char := rstripChars (lstripChars l)

/-- Is `c` one of the two markdown emphasis marker characters? -/
def isMarker (c : Char) : Bool := c = '*' || c = '_'

/-- One left-to-right pass of `re.sub(r'\*{2,}|_{2,}', '', text)`
(app.py line 87).  The state `some m` means the scanner is inside a matched
run of the marker `m` and is deleting it; `none` means it is looking for the
next match.  A match starts at a marker character whose immediate successor
is the same character (the `{2,}` quantifier), and, being greedy, consumes
the whole maximal run before scanning resumes after it — which is exactly
what staying in state `some m` while the character repeats does. -/
def rmAux : Option Char → List Char → List Char
  | _, [] => []
  | some m, c :: cs =>
    if c = m then rmAux (some m) cs
    else if isMarker c && cs.head? == some c then rmAux (some c) cs
    else c :: rmAux none cs
  | none, c :: cs =>
    if isMarker c && cs.head? == some c then rmAux (some c) cs
    else c :: rmAux none cs

/-- `re.sub(r'\*{2,}|_{2,}', '', text)`: delete every run of two or more
consecutive `*` and every run of two or more consecutive `_`. -/
def removeRuns (l : List Char) : List Char := rmAux none l

/-- `clean_response` (app.py lines 86-87):
`re.sub(r'\*{2,}|_{2,}', '', text).strip()`. -/
def clean_response (s : String) : String := ⟨stripChars (removeRuns s.data)⟩

example : clean_response "**bold**" = "bold" := by decide
example : clean_response "a_b" = "a_b" := by decide
example : clean_response "  x  " = "x" := by decide
example : clean_response "_**_" = "__" := by decide
example : clean_response "__" = "" := by decide

/-! ### Generic left-to-right position scan

`re.search` and `str.split`/`str.find` try each start position of the text
from left to right and stop at the first position where the pattern matches.
`scanIdx p l` is that scan: the index of the first suffix of `l` satisfying
`p` (suffixes of positive length only — a pattern that needs at least one
character cannot match at the end of the text). -/

def scanIdx (p : List Char → Bool) : List Char → Option Nat
  | [] => none
  | c :: cs => if p (c :: cs) then some 0 else (scanIdx p cs).map (· + 1)

/-- Python's `str.title()` (ASCII model): an alphabetic character is
uppercased when the previous character is not alphabetic and lowercased
otherwise; other characters are kept and reset the word state. -/
def pyTitleAux : Bool → List Char → List Char
  | _, [] => []
  | prevCased, c :: cs =>
    if c.isAlpha then
      (if prevCased then c.toLower else c.toUpper) :: pyTitleAux true cs
    else
      c :: pyTitleAux false cs

/-- Python's `str.title()` on code points. -/
def pyTitle (l : List Char) : List Char := pyTitleAux false l

/-- Python's `str.lower()` (ASCII model). -/
def pyLower (l : List Char) : List Char := l.map Char.toLower

/-- Python's `text.split('\n')[0]`: the first newline-delimited line. -/
def firstLine (s : String) : String := ⟨s.data.takeWhile (fun c => c ≠ '\n')⟩

/-- Python's slice `s[:n]` (by code points, as Python slices `str`). -/
def pyTake (n : Nat) (s : String) : String := ⟨s.data.take n⟩

/-! ### The category/subcategory extractor (app.py lines 149-160)

`re.search(r'Category:\s*([^\n]+)', text, re.IGNORECASE)` and the analogous
`Subcategory:` search.  The pattern is a case-insensitive literal label
followed by `\s*([^\n]+)`.  At a given start position the label must match
literally; after it, the greedy `\s*` takes the maximal whitespace run `w`
(which may cross newlines) and `[^\n]+` then needs at least one character
that is not a newline:

* if some character follows `w`, it is not whitespace (maximality), hence
  not a newline, and the group is the run of non-newline characters from it;
* otherwise the whole tail is whitespace and `\s*` backtracks one character
  at a time, so the first success hands `[^\n]+` the last non-`'\n'`
  character of the tail (everything after it is `'\n'`), a one-character
  group — and if the tail is all `'\n'`, there is no match at this position
  and the engine moves to the next start position. -/

/-- The text captured by `([^\n]+)` when `\s*([^\n]+)` is matched against
`t` (the tail after the label), `none` when it cannot match. -/
def group1 (t : List Char) : Option (List Char) :=
  let w := t.takeWhile pyIsSpace
  if w.length < t.length then
    some ((t.drop w.length).takeWhile (fun c => c ≠ '\n'))
  else
    ((t.filter (fun c => c ≠ '\n')).getLast?).map (fun c => [c])

/-- Case-insensitive literal match of the (lowercase) pattern `lab` at the
head of `suf`, as `re.IGNORECASE` matches an ASCII literal. -/
def ciIsPrefix : List Char → List Char → Bool
  | [], _ => true
  | _ :: _, [] => false
  | a :: as, b :: bs => (b.toLower = a) && ciIsPrefix as bs

/-- Does the whole pattern `lab` `\s*([^\n]+)` match at the head of `suf`? -/
def labelPred (lab : List Char) (suf : List Char) : Bool :=
  ciIsPrefix lab suf && (group1 (suf.drop lab.length)).isSome

/-- `re.search(lab + r'\s*([^\n]+)', text, re.IGNORECASE)` followed by
`.group(1)`: the group captured at the first start position where the whole
pattern matches. -/
def labelValue (lab : List Char) (text : List Char) : Option (List Char) :=
  (scanIdx (labelPred lab) text).bind fun i => group1 ((text.drop i).drop lab.length)

/-- `valid_cats` (app.py line 154). -/
def validCats : List String :=
  ["Electronics", "Furniture", "Appliances", "Books", "Clothing", "Miscellaneous"]

/-- Normalization of a captured category value (app.py lines 153-155):
`category_match.group(1).strip().title()`, kept only if it is a member of
`valid_cats`. -/
def categoryOfGroup (g : List Char) : String :=
  let v : String := ⟨pyTitle (stripChars g)⟩
  if validCats.contains v then v else "Miscellaneous"

/-- Normalization of a captured subcategory value (app.py lines 158-160):
`subcat_match.group(1).strip().title()`, collapsed to `"Miscellaneous"` when
its lowercasing is `'others'` or `'other'`. -/
def subcategoryOfGroup (g : List Char) : String :=
  let v : List Char := pyTitle (stripChars g)
  if ["others", "other"].contains (⟨pyLower v⟩ : String) then "Miscellaneous"
  else ⟨v⟩

/-- The category-parsing block of `generate_content` (app.py lines 140-160),
applied to the raw category-stage model text: both regex searches, the
defaults `"Miscellaneous"`, the taxonomy check and the others-collapse. -/
def extractCategory (text : String) : String × String :=
  ( match labelValue "category:".data text.data with
    | some g => categoryOfGroup g
    | none => "Miscellaneous"
  , match labelValue "subcategory:".data text.data with
    | some g => subcategoryOfGroup g
    | none => "Miscellaneous" )

example : extractCategory "Category: electronics\nSubcategory: others" =
    ("Electronics", "Miscellaneous") := by decide
example : extractCategory "Category: Spaceship" =
    ("Miscellaneous", "Miscellaneous") := by decide
example : extractCategory "" = ("Miscellaneous", "Miscellaneous") := by decide
example : extractCategory "Subcategory: Books" = ("Books", "Books") := by decide
example : extractCategory "Category: \n  Electronics " =
    ("Electronics", "Miscellaneous") := by decide
example : extractCategory "Category: **Electronics**" =
    ("Miscellaneous", "Miscellaneous") := by decide

/-! ### The title/description splitter (app.py lines 89-98) -/

/-- Python's `s.replace(pat, '')` for a non-empty pattern `pat`: remove every
occurrence, scanning left to right without overlap.  The counter state is the
number of characters of a matched occurrence still to be consumed. -/
def removeOccAux (pat : List Char) : Nat → List Char → List Char
  | _, [] => []
  | k + 1, _ :: cs => removeOccAux pat k cs
  | 0, c :: cs =>
    if pat ≠ [] && pat.isPrefixOf (c :: cs) then
      removeOccAux pat (pat.length - 1) cs
    else
      c :: removeOccAux pat 0 cs

/-- Python's `s.replace(pat, '')`. -/
def removeOcc (pat : List Char) (l : List Char) : List Char := removeOccAux pat 0 l

/-- `parse_sales_response` (app.py lines 89-98).  `text.split("Description:", 1)`
unpacked into two variables succeeds exactly when the marker occurs in the
text (splitting at its first occurrence); otherwise the unpacking raises
`ValueError`, which the `except` turns into the fallback
`(text.split('\n')[0][:50].strip(), text)`. -/
def parse_sales_response (text : String) : String × String :=
  match scanIdx (fun suf => "Description:".data.isPrefixOf suf) text.data with
  | some i =>
    let title_part : List Char := text.data.take i
    let desc_part : List Char := text.data.drop (i + "Description:".data.length)
    (⟨stripChars (removeOcc "Title:".data title_part)⟩, ⟨stripChars desc_part⟩)
  | none =>
    (⟨stripChars ((firstLine text).data.take 50)⟩, text)

example : parse_sales_response "Title: Lamp\nDescription: A nice lamp" =
    ("Lamp", "A nice lamp") := by decide
example : parse_sales_response "just text" = ("just text", "just text") := by decide
example : parse_sales_response " just text" = ("just text", " just text") := by decide

/-! ### The verdict extractor: `re.search(r'\byes\b', text, re.IGNORECASE)`
(app.py lines 121 and 200).  The scanner tries each start position from left
to right; a match needs the three letters `y` `e` `s` (case-insensitively),
a word boundary before (start of text or a non-word character, carried along
as the previously scanned character) and a word boundary after (end of text
or a non-word character). -/

def boundOpt : Option Char → Bool
  | none => true
  | some c => !isWordChar c

def scanYes : Option Char → List Char → Bool
  | prev, c1 :: c2 :: c3 :: rest =>
    if (c1.toLower = 'y' && c2.toLower = 'e' && c3.toLower = 's')
        && boundOpt prev && boundOpt rest.head? then
      true
    else
      scanYes (some c1) (c2 :: c3 :: rest)
  | _, _ => false

/-- `bool(re.search(r'\byes\b', text, re.IGNORECASE))`. -/
def hasYesWord (s : String) : Bool := scanYes none s.data

example : hasYesWord "Yes, it works" = true := by decide
example : hasYesWord "yesterday this broke" = false := by decide
example : hasYesWord "No, broken screen" = false := by decide
example : hasYesWord "a_yes" = false := by decide
example : hasYesWord "YES" = true := by decide

/-! ### The two POST endpoints

The HTTP layer is modelled by its observable data: whether the multipart
field `image` is present, the upload's `content_length`, the result of
`PIL.Image.open` (error message or success), and the inference collaborator
`model.generate_content` as a map from the stage (which fixed prompt is sent)
to either the response text or the exception message.  A `jsonify(...)`
payload is an association list from field names to JSON values, paired with
the HTTP status (200 when none is given).  `generate_content` additionally
returns the list of inference calls it issued, in order. -/

/-- A JSON value (only strings and booleans occur in the bodies built here). -/
inductive JVal where
  | str (s : String)
  | bool (b : Bool)
deriving DecidableEq

/-- An HTTP response: status code and JSON object body. -/
structure HttpResp where
  status : Nat
  body : List (String × JVal)
deriving DecidableEq

/-- The three inference stages of `/generate-content`, named by their prompt. -/
inductive Stage where
  | reusability
  | description
  | category
deriving DecidableEq

/-- The `/generate-content` handler (app.py lines 100-175).  `env` gives, per
stage, the model's text (`Except.ok`) or the exception message
(`Except.error`).  The second component is the list of inference calls
issued.  The handler's own body never raises otherwise, so the outer
`except` (lines 173-175) is unreachable and not modelled. -/
def generate_content (hasImage : Bool) (contentLength : Nat)
    (decodeImg : Except String Unit) (env : Stage → Except String String) :
    HttpResp × List Stage :=
  if !hasImage then
    (⟨400, [("error", .str "No image provided")]⟩, [])
  else if contentLength > 5 * 1024 * 1024 then
    (⟨400, [("error", .str "Image exceeds 5MB size limit")]⟩, [])
  else
    match decodeImg with
    | .error e => (⟨400, [("error", .str ("Invalid image: " ++ e))]⟩, [])
    | .ok _ =>
      match env .reusability with
      | .error e =>
        (⟨500, [("error", .str ("Reusability check failed: " ++ e))]⟩, [.reusability])
      | .ok rt =>
        let reuse_text := clean_response rt
        if !hasYesWord reuse_text then
          (⟨200, [("reusable", .bool false),
                  ("reason", .str (pyTake 200 (firstLine reuse_text)))]⟩,
           [.reusability])
        else
          match env .description with
          | .error e =>
            (⟨500, [("error", .str ("Description failed: " ++ e))]⟩,
             [.reusability, .description])
          | .ok dt =>
            let raw_description := clean_response dt
            let td := parse_sales_response raw_description
            let cs :=
              match env .category with
              | .error _ => ("Miscellaneous", "Miscellaneous")
              | .ok ct => extractCategory ct
            (⟨200, [("reusable", .bool true),
                    ("title", .str td.1),
                    ("description", .str td.2),
                    ("category", .str cs.1),
                    ("subcategory", .str cs.2),
                    ("reason", .str (pyTake 200 reuse_text))]⟩,
             [.reusability, .description, .category])

/-- The `/check-reusability` handler (app.py lines 180-209). -/
def check_reusability (hasImage : Bool) (contentLength : Nat)
    (decodeImg : Except String Unit) (reuse : Except String String) : HttpResp :=
  if !hasImage then
    ⟨400, [("error", .str "No image")]⟩
  else if contentLength > 5 * 1024 * 1024 then
    ⟨400, [("error", .str "Image too large (max 5MB)")]⟩
  else
    match decodeImg with
    | .error e => ⟨400, [("error", .str ("Invalid image: " ++ e))]⟩
    | .ok _ =>
      match reuse with
      | .error e => ⟨500, [("error", .str ("Check failed: " ++ e))]⟩
      | .ok t =>
        let text := clean_response t
        ⟨200, [("reusable", .bool (hasYesWord text)),
               ("reason", .str (pyTake 200 (firstLine text)))]⟩

/-- A concrete inference environment: a reusable verdict with a multi-line
explanation, a well-formed sales pitch, a well-formed category answer. -/
def envReusable : Stage → Except String String
  | .reusability => .ok "Yes\nIt still works well."
  | .description => .ok "Title: Desk Lamp\nDescription: A nice lamp."
  | .category => .ok "Category: Electronics\nSubcategory: Accessories"

/-- A concrete inference environment whose verdict is negative. -/
def envNotReusable : Stage → Except String String
  | .reusability => .ok "No\nThe screen is shattered."
  | _ => .ok "unused"

example :
    generate_content true 0 (.ok ()) envReusable =
      (⟨200, [("reusable", .bool true),
              ("title", .str "Desk Lamp"),
              ("description", .str "A nice lamp."),
              ("category", .str "Electronics"),
              ("subcategory", .str "Accessories"),
              ("reason", .str "Yes\nIt still works well.")]⟩,
       [.reusability, .description, .category]) := by decide

example :
    generate_content true 0 (.ok ()) envNotReusable =
      (⟨200, [("reusable", .bool false),
              ("reason", .str "No")]⟩,
       [.reusability]) := by decide

example :
    check_reusability true 0 (.ok ()) (.ok "Yes\nIt still works well.") =
      ⟨200, [("reusable", .bool true), ("reason", .str "Yes")]⟩ := by decide

/-! ### Specification-side definitions

Second definitions, following the words of the specification resp. of the
amended claims, to be compared with the ones embedded from the source.  They
describe the searches declaratively: "the first position `i` of the text at
which the pattern matches", phrased as `List.find?` over all positions in
increasing order, rather than as the engine's recursive scan. -/

/-- The first (smallest) index of the text whose suffix satisfies `p`, taken
declaratively from the list of all positions in increasing order. -/
def firstIdx (p : List Char → Bool) (l : List Char) : Option Nat :=
  (List.range l.length).find? (fun i => p (l.drop i))

/-- Spec-side counterpart of `labelValue`: the group captured at the first
position of the whole text (not: per line) at which the case-insensitive
label followed by `\s*([^\n]+)` matches. -/
def specLabelValue (lab : List Char) (text : List Char) : Option (List Char) :=
  (firstIdx (labelPred lab) text).bind fun i => group1 ((text.drop i).drop lab.length)

/-- Spec-side category extraction, following the amended claim C3: the value
comes from the first position anywhere in the text where `Category:` matches
case-insensitively (which includes the tail of a `Subcategory:` label); the
trimmed, title-cased value is kept only if it belongs to the fixed taxonomy,
and otherwise — or when there is no match — the category is
`"Miscellaneous"`. -/
def specCategory (text : String) : String :=
  match specLabelValue "category:".data text.data with
  | some g => categoryOfGroup g
  | none => "Miscellaneous"

/-- Spec-side subcategory extraction, following the amended claim C4: the
value comes from the first position anywhere in the text where
`Subcategory:` matches case-insensitively; the trimmed value is title-cased,
and collapsed to `"Miscellaneous"` when it case-insensitively equals
`other`/`others`; without a match the subcategory is `"Miscellaneous"`. -/
def specSubcategory (text : String) : String :=
  match specLabelValue "subcategory:".data text.data with
  | some g => subcategoryOfGroup g
  | none => "Miscellaneous"

/-- Spec-side title/description splitter, following the amended claim C6:
split at the first occurrence of the literal marker `Description:`; the title
is the segment before it with every literal `Title:` removed and trimmed, the
description the segment after it trimmed; without the marker, the title is
the first line truncated to 50 characters and then trimmed, and the
description is the entire original text unchanged. -/
def specSplitTitleDescription (text : String) : String × String :=
  match firstIdx (fun suf => "Description:".data.isPrefixOf suf) text.data with
  | some i =>
    (⟨stripChars (removeOcc "Title:".data (text.data.take i))⟩,
     ⟨stripChars (text.data.drop (i + "Description:".data.length))⟩)
  | none =>
    (⟨stripChars ((firstLine text).data.take 50)⟩, text)

/-! ### Declarative characterization of the whole-word `yes` search -/

/-- The word boundary required before a match at position `i`, during a scan
in which `prev` is the character preceding the current suffix (`none` at the
start of the text). -/
def yesBefore (prev : Option Char) (l : List Char) : Nat → Prop
  | 0 => boundOpt prev = true
  | j + 1 => ∃ c, l[j]? = some c ∧ isWordChar c = false

/-- A case-insensitive occurrence of `yes` at position `i` of `l`, with the
word boundary after it: the following position holds a non-word character or
is the end of the text. -/
def yesCore (l : List Char) (i : Nat) : Prop :=
  (∃ c, l[i]? = some c ∧ c.toLower = 'y') ∧
  (∃ c, l[i + 1]? = some c ∧ c.toLower = 'e') ∧
  (∃ c, l[i + 2]? = some c ∧ c.toLower = 's') ∧
  (l[i + 3]? = none ∨ ∃ c, l[i + 3]? = some c ∧ isWordChar c = false)

/-- Spec-side wording of claim C8: the text contains the whole word `yes`,
case-insensitively and word-boundary delimited. -/
def containsWordYes (s : String) : Prop :=
  ∃ i, yesCore s.data i ∧
    (i = 0 ∨ ∃ c, s.data[i - 1]? = some c ∧ isWordChar c = false)

/-! ### Idempotence analysis of the cleaner

`clean_response` is not idempotent in general: deleting a `**` run can make
two previously separated single `_` adjacent (and vice versa), producing a
run that only the next application deletes — `clean_response "_**_"` is
`"__"`, which cleans further to `""`.  When the input contains at most one
of the two marker characters this cannot happen, and cleaning is idempotent.
`noPair l` says that no removable run (two adjacent equal markers) starts
anywhere in `l`. -/

def noPair : List Char → Bool
  | c :: d :: cs => !(isMarker c && d == c) && noPair (d :: cs)
  | _ => true

/-! ### Further concrete inference environments used as claim witnesses -/

/-- The reusability call raises an exception. -/
def envReuseFail : Stage → Except String String
  | .reusability => .error "boom"
  | _ => .ok "unused"

/-- The sales-pitch call raises an exception. -/
def envDescFail : Stage → Except String String
  | .reusability => .ok "Yes"
  | .description => .error "boom"
  | .category => .ok "unused"

/-- The category call raises an exception. -/
def envCatFail : Stage → Except String String
  | .reusability => .ok "Yes"
  | .description => .ok "Title: T\nDescription: D"
  | .category => .error "boom"

/-- The category call answers with the value wrapped in emphasis markers. -/
def envCatMarkdown : Stage → Except String String
  | .reusability => .ok "Yes"
  | .description => .ok "Title: T\nDescription: D"
  | .category => .ok "Category: **Electronics**"

/-- The engine's left-to-right scan finds exactly the first position at which
the pattern matches. -/
theorem scanIdx_eq_firstIdx (p : List Char → Bool) (l : List Char) :
    scanIdx p l = firstIdx p l := by
  induction l with
  | nil => rfl
  | cons c cs ih =>
    unfold firstIdx
    rw [List.length_cons, List.range_succ_eq_map, List.find?_cons]
    cases hp : p (c :: cs) with
    | true => simp [scanIdx, hp]
    | false =>
      simp only [List.drop_zero, hp, scanIdx, if_neg Bool.false_ne_true]
      rw [List.find?_map, ih, firstIdx]
      have hc : ((fun i => p ((c :: cs).drop i)) ∘ Nat.succ) =
          fun i => p (cs.drop i) := by
        funext i
        simp [Function.comp, List.drop_succ_cons]
      rw [hc]

theorem scanYes_cons3 (prev : Option Char) (c1 c2 c3 : Char) (rest : List Char) :
    scanYes prev (c1 :: c2 :: c3 :: rest) =
      if (c1.toLower = 'y' && c2.toLower = 'e' && c3.toLower = 's')
          && boundOpt prev && boundOpt rest.head? then
        true
      else
        scanYes (some c1) (c2 :: c3 :: rest) := rfl

theorem yesCore_cons_succ (c : Char) (l : List Char) (j : Nat) :
    yesCore (c :: l) (j + 1) ↔ yesCore l j := by
  simp [yesCore, List.getElem?_cons_succ, Nat.add_right_comm _ _ 1]

theorem yesBefore_cons_succ (prev : Option Char) (c : Char) (l : List Char)
    (j : Nat) : yesBefore prev (c :: l) (j + 1) ↔ yesBefore (some c) l j := by
  cases j with
  | zero =>
    simp [yesBefore, boundOpt, List.getElem?_cons_zero, Bool.not_eq_true']
  | succ k =>
    simp [yesBefore, List.getElem?_cons_succ]

/-- The scanner embedded from `re.search(r'\byes\b', ..., re.IGNORECASE)`
accepts exactly the texts with a boundary-delimited case-insensitive `yes`,
where the boundary before the match start is taken relative to `prev`. -/
theorem scanYes_iff (prev : Option Char) (l : List Char) :
    scanYes prev l = true ↔ ∃ i, yesCore l i ∧ yesBefore prev l i := by
  induction l generalizing prev with
  | nil =>
    constructor
    · intro h; cases h
    · rintro ⟨i, ⟨⟨c, hc, -⟩, -, -, -⟩, -⟩
      rw [List.getElem?_eq_none (Nat.zero_le i)] at hc
      cases hc
  | cons c1 cs ih =>
    cases cs with
    | nil =>
      constructor
      · intro h; cases h
      · rintro ⟨i, ⟨-, ⟨c, hc, -⟩, -, -⟩, -⟩
        rw [List.getElem?_eq_none
          (by simp only [List.length_cons, List.length_nil]; omega)] at hc
        cases hc
    | cons c2 cs2 =>
      cases cs2 with
      | nil =>
        constructor
        · intro h; cases h
        · rintro ⟨i, ⟨-, -, ⟨c, hc, -⟩, -⟩, -⟩
          rw [List.getElem?_eq_none
            (by simp only [List.length_cons, List.length_nil]; omega)] at hc
          cases hc
      | cons c3 rest =>
        rw [scanYes_cons3]
        cases hT : (c1.toLower = 'y' && c2.toLower = 'e' && c3.toLower = 's')
            && boundOpt prev && boundOpt rest.head? with
        | true =>
          simp only [Bool.and_eq_true, decide_eq_true_eq] at hT
          obtain ⟨⟨⟨⟨hy, he⟩, hs⟩, hprev⟩, hafter⟩ := hT
          rw [if_pos rfl]
          refine iff_of_true rfl
            ⟨0, ⟨⟨c1, by simp, hy⟩, ⟨c2, by simp, he⟩, ⟨c3, by simp, hs⟩, ?_⟩, hprev⟩
          cases rest with
          | nil => exact Or.inl (by simp)
          | cons r rs =>
            refine Or.inr ⟨r, by simp, ?_⟩
            simpa [boundOpt, Bool.not_eq_true'] using hafter
        | false =>
          rw [if_neg (by simp [hT]), ih]
          constructor
          · rintro ⟨i, hcore, hbef⟩
            exact ⟨i + 1, (yesCore_cons_succ _ _ _).mpr hcore,
              (yesBefore_cons_succ _ _ _ _).mpr hbef⟩
          · rintro ⟨i, hcore, hbef⟩
            cases i with
            | zero =>
              exfalso
              obtain ⟨⟨a, ha, hay⟩, ⟨b, hb, hbe⟩, ⟨d, hd, hds⟩, hafter⟩ := hcore
              have hy' : c1.toLower = 'y' := by
                simp only [List.getElem?_cons_zero, Option.some.injEq] at ha
                rwa [← ha] at hay
              have he' : c2.toLower = 'e' := by
                simp only [List.getElem?_cons_succ, List.getElem?_cons_zero,
                  Option.some.injEq] at hb
                rwa [← hb] at hbe
              have hs' : c3.toLower = 's' := by
                simp only [List.getElem?_cons_succ, List.getElem?_cons_zero,
                  Option.some.injEq] at hd
                rwa [← hd] at hds
              have hrest : boundOpt rest.head? = true := by
                cases rest with
                | nil => simp [boundOpt]
                | cons r rs =>
                  rcases hafter with hnone | ⟨e, he, hew⟩
                  · simp at hnone
                  · have he2 : r = e := by
                      simpa only [List.getElem?_cons_succ,
                        List.getElem?_cons_zero, Option.some.injEq] using he
                    rw [he2]
                    simp [boundOpt, Bool.not_eq_true', hew]
              have hbef' : boundOpt prev = true := hbef
              have hall : ((c1.toLower = 'y' && c2.toLower = 'e'
                  && c3.toLower = 's') && boundOpt prev
                  && boundOpt rest.head?) = true := by
                simp [hy', he', hs', hbef', hrest]
              simp [hall] at hT
            | succ j =>
              exact ⟨j, (yesCore_cons_succ _ _ _).mp hcore,
                (yesBefore_cons_succ _ _ _ _).mp hbef⟩

/-- `hasYesWord` agrees with the declarative whole-word containment. -/
theorem hasYesWord_iff_containsWordYes (s : String) :
    hasYesWord s = true ↔ containsWordYes s := by
  rw [hasYesWord, scanYes_iff, containsWordYes]
  refine exists_congr fun i => and_congr_right fun _ => ?_
  cases i with
  | zero => simp [yesBefore, boundOpt]
  | succ j => simp [yesBefore]

theorem rmAux_none_cons (c : Char) (cs : List Char) :
    rmAux none (c :: cs) =
      if isMarker c && cs.head? == some c then rmAux (some c) cs
      else c :: rmAux none cs := rfl

theorem rmAux_some_cons (m c : Char) (cs : List Char) :
    rmAux (some m) (c :: cs) =
      if c = m then rmAux (some m) cs
      else if isMarker c && cs.head? == some c then rmAux (some c) cs
      else c :: rmAux none cs := rfl

theorem noPair_cons (c : Char) (l : List Char) (h : noPair (c :: l) = true) :
    noPair l = true := by
  cases l with
  | nil => rfl
  | cons d cs => exact (Bool.and_eq_true .. ▸ h).2

theorem noPair_cons_cons (c d : Char) (ds : List Char) :
    noPair (c :: d :: ds) = (!(isMarker c && d == c) && noPair (d :: ds)) := rfl

theorem bad_false_of_noPair (c d : Char) (ds : List Char)
    (h : noPair (c :: d :: ds) = true) : (isMarker c && d == c) = false := by
  have h1 : (!(isMarker c && d == c)) = true := (Bool.and_eq_true .. ▸ h).1
  rwa [Bool.not_eq_true'] at h1

theorem noPair_cons_cons_of (c d : Char) (ds : List Char)
    (hbad : (isMarker c && d == c) = false) (h : noPair (d :: ds) = true) :
    noPair (c :: d :: ds) = true := by
  rw [noPair_cons_cons, hbad, h]
  rfl

/-- On a text without a removable run the substitution pass is the
identity. -/
theorem rmAux_none_of_noPair (l : List Char) (h : noPair l = true) :
    rmAux none l = l := by
  induction l with
  | nil => rfl
  | cons c cs ih =>
    rw [rmAux_none_cons]
    have hcond : (isMarker c && cs.head? == some c) = false := by
      cases cs with
      | nil => simp
      | cons d ds => exact bad_false_of_noPair c d ds h
    rw [hcond, if_neg Bool.false_ne_true, ih (noPair_cons _ _ h)]

/-- The central invariant: when every marker occurring in `l` is the single
character `m`, one substitution pass leaves no removable run behind, and the
head of the output is constrained enough to rule out new runs.  The first
conjunct is about scanning state `none`, the second about the deleting state
`some m`. -/
theorem rmAux_single (m : Char) (l : List Char)
    (hp : ∀ c ∈ l, isMarker c = true → c = m) :
    (noPair (rmAux none l) = true ∧
      (∀ c, (rmAux none l).head? = some c → isMarker c = true →
        l.head? = some c)) ∧
    (noPair (rmAux (some m) l) = true ∧
      (∀ c, (rmAux (some m) l).head? = some c → isMarker c = false)) := by
  induction l with
  | nil => exact ⟨⟨rfl, by intro c h; cases h⟩, rfl, by intro c h; cases h⟩
  | cons c cs ih =>
    have hpcs : ∀ d ∈ cs, isMarker d = true → d = m := fun d hd => hp d (.tail _ hd)
    obtain ⟨⟨ihA, ihAh⟩, ihB, ihBh⟩ := ih hpcs
    constructor
    · rw [rmAux_none_cons]
      cases hcond : isMarker c && cs.head? == some c with
      | true =>
        rw [if_pos rfl]
        have hc : c = m := hp c (.head _) (Bool.and_eq_true .. ▸ hcond).1
        subst hc
        refine ⟨ihB, fun d hd hmark => ?_⟩
        rw [ihBh d hd] at hmark
        cases hmark
      | false =>
        rw [if_neg Bool.false_ne_true]
        constructor
        · cases hr : rmAux none cs with
          | nil => rfl
          | cons d ds =>
            have hnp : noPair (d :: ds) = true := hr ▸ ihA
            refine noPair_cons_cons_of c d ds ?_ hnp
            cases hmc : isMarker c with
            | false => rfl
            | true =>
              cases hdc : d == c with
              | false => rfl
              | true =>
                exfalso
                have hdc' : d = c := by simpa using hdc
                have hcs : cs.head? = some c := by
                  refine ihAh c ?_ hmc
                  rw [hr, hdc']
                  rfl
                rw [hmc, hcs] at hcond
                simp at hcond
        · intro d hd _
          have hdc : d = c := by simpa using hd.symm
          rw [hdc]
          rfl
    · rw [rmAux_some_cons]
      by_cases hcm : c = m
      · rw [if_pos hcm]
        exact ⟨ihB, ihBh⟩
      · rw [if_neg hcm]
        have hmc : isMarker c = false := by
          cases h : isMarker c with
          | false => rfl
          | true => exact absurd (hp c (.head _) h) hcm
        have hcond : (isMarker c && cs.head? == some c) = false := by
          rw [hmc]
          rfl
        rw [hcond, if_neg Bool.false_ne_true]
        constructor
        · cases hr : rmAux none cs with
          | nil => rfl
          | cons d ds =>
            have hnp : noPair (d :: ds) = true := hr ▸ ihA
            exact noPair_cons_cons_of c d ds (by rw [hmc]; rfl) hnp
        · intro d hd
          have hdc : d = c := by simpa using hd.symm
          rw [hdc]
          exact hmc

/-- `noPair` is inherited by `dropWhile` (a suffix). -/
theorem noPair_dropWhile (p : Char → Bool) (l : List Char)
    (h : noPair l = true) : noPair (l.dropWhile p) = true := by
  induction l with
  | nil => exact h
  | cons c cs ih =>
    rw [List.dropWhile_cons]
    by_cases hc : p c = true
    · rw [if_pos hc]; exact ih (noPair_cons _ _ h)
    · rw [if_neg hc]; exact h

theorem rstrip_cons (c : Char) (cs : List Char) :
    rstripChars (c :: cs) =
      match rstripChars cs with
      | [] => if pyIsSpace c then [] else [c]
      | r => c :: r := rfl

/-- `rstripChars` keeps the head of the text when the result is non-empty. -/
theorem rstrip_head (l : List Char) (h : rstripChars l ≠ []) :
    (rstripChars l).head? = l.head? := by
  cases l with
  | nil => exact absurd rfl h
  | cons c cs =>
    rw [rstrip_cons] at h ⊢
    cases hr : rstripChars cs with
    | nil =>
      rw [hr] at h
      by_cases hc : pyIsSpace c = true
      · simp [hc] at h
      · simp [hc]
    | cons d ds => rfl

/-- `noPair` is inherited by `rstripChars` (a prefix). -/
theorem noPair_rstrip (l : List Char) (h : noPair l = true) :
    noPair (rstripChars l) = true := by
  induction l with
  | nil => exact h
  | cons c cs ih =>
    rw [rstrip_cons]
    cases hr : rstripChars cs with
    | nil =>
      by_cases hc : pyIsSpace c = true
      · rw [if_pos hc]; rfl
      · rw [if_neg hc]; rfl
    | cons d ds =>
      have hnp : noPair (d :: ds) = true := hr ▸ ih (noPair_cons _ _ h)
      have hhead : cs.head? = some d := by
        have hh := rstrip_head cs (by rw [hr]; exact List.cons_ne_nil _ _)
        rw [hr] at hh
        exact hh.symm
      refine noPair_cons_cons_of c d ds ?_ hnp
      cases cs with
      | nil => cases hhead
      | cons e es =>
        have he : e = d := by simpa using hhead
        rw [← he]
        exact bad_false_of_noPair c e es h

theorem noPair_stripChars (l : List Char) (h : noPair l = true) :
    noPair (stripChars l) = true :=
  noPair_rstrip _ (noPair_dropWhile _ _ h)

theorem rstrip_idem (l : List Char) :
    rstripChars (rstripChars l) = rstripChars l := by
  induction l with
  | nil => rfl
  | cons c cs ih =>
    rw [rstrip_cons]
    cases hr : rstripChars cs with
    | nil =>
      by_cases hc : pyIsSpace c = true
      · rw [if_pos hc]
        rfl
      · rw [if_neg hc]
        show rstripChars [c] = [c]
        rw [rstrip_cons]
        show (if pyIsSpace c = true then [] else [c]) = [c]
        rw [if_neg hc]
    | cons d ds =>
      have hds : rstripChars (d :: ds) = d :: ds := by rw [← hr, ih, hr]
      show rstripChars (c :: d :: ds) = c :: d :: ds
      rw [rstrip_cons, hds]

/-- The head of `dropWhile p` never satisfies `p`. -/
theorem head_dropWhile (p : Char → Bool) (l : List Char) (c : Char)
    (h : (l.dropWhile p).head? = some c) : p c = false := by
  induction l with
  | nil => cases h
  | cons d ds ih =>
    rw [List.dropWhile_cons] at h
    by_cases hd : p d = true
    · rw [if_pos hd] at h; exact ih h
    · rw [if_neg hd] at h
      have hdc : d = c := by simpa using h
      rw [← hdc]
      exact Bool.not_eq_true _ ▸ hd

theorem stripChars_idem (l : List Char) :
    stripChars (stripChars l) = stripChars l := by
  show rstripChars (lstripChars (rstripChars (lstripChars l))) =
    rstripChars (lstripChars l)
  have hl : lstripChars (rstripChars (lstripChars l)) =
      rstripChars (lstripChars l) := by
    cases hr : rstripChars (lstripChars l) with
    | nil => rfl
    | cons d ds =>
      have hd : (lstripChars l).head? = some d := by
        have hh := rstrip_head (lstripChars l)
          (by rw [hr]; exact List.cons_ne_nil _ _)
        rw [hr] at hh
        exact hh.symm
      have hds : pyIsSpace d = false := head_dropWhile pyIsSpace l d hd
      show List.dropWhile pyIsSpace (d :: ds) = d :: ds
      rw [List.dropWhile_cons, if_neg (by rw [hds]; exact Bool.false_ne_true)]
  rw [hl, rstrip_idem]

/-- The cleaner is idempotent on texts whose markers are all the single
character `m`. -/
theorem clean_response_idem_single (m : Char) (s : String)
    (hp : ∀ c ∈ s.data, isMarker c = true → c = m) :
    clean_response (clean_response s) = clean_response s := by
  have h1 : noPair (rmAux none s.data) = true := ((rmAux_single m s.data hp).1).1
  have h2 : noPair (stripChars (rmAux none s.data)) = true := noPair_stripChars _ h1
  show (⟨stripChars (removeRuns (stripChars (removeRuns s.data)))⟩ : String)
    = ⟨stripChars (removeRuns s.data)⟩
  rw [removeRuns, removeRuns, rmAux_none_of_noPair _ h2, stripChars_idem]

/-! ### Branch lemmas for the endpoint handlers -/

theorem gc_reuse_error (clen : Nat) (env : Stage → Except String String)
    (e : String) (hclen : clen ≤ 5 * 1024 * 1024)
    (h : env .reusability = .error e) :
    generate_content true clen (.ok ()) env =
      (⟨500, [("error", .str ("Reusability check failed: " ++ e))]⟩,
       [.reusability]) := by
  unfold generate_content
  rw [if_neg (by simp), if_neg (by omega), h]

theorem gc_not_reusable (clen : Nat) (env : Stage → Except String String)
    (rt : String) (hclen : clen ≤ 5 * 1024 * 1024)
    (h : env .reusability = .ok rt)
    (hyes : hasYesWord (clean_response rt) = false) :
    generate_content true clen (.ok ()) env =
      (⟨200, [("reusable", .bool false),
              ("reason", .str (pyTake 200 (firstLine (clean_response rt))))]⟩,
       [.reusability]) := by
  unfold generate_content
  rw [if_neg (by simp), if_neg (by omega)]
  simp only [h, hyes, Bool.not_false, Bool.not_true, if_true, if_false]

theorem gc_desc_error (clen : Nat) (env : Stage → Except String String)
    (rt e : String) (hclen : clen ≤ 5 * 1024 * 1024)
    (h : env .reusability = .ok rt)
    (hyes : hasYesWord (clean_response rt) = true)
    (hd : env .description = .error e) :
    generate_content true clen (.ok ()) env =
      (⟨500, [("error", .str ("Description failed: " ++ e))]⟩,
       [.reusability, .description]) := by
  unfold generate_content
  rw [if_neg (by simp), if_neg (by omega)]
  simp only [h, hyes, hd, Bool.not_false, Bool.not_true, if_true, if_false]
  rfl

theorem gc_ok (clen : Nat) (env : Stage → Except String String)
    (rt dt ct : String) (hclen : clen ≤ 5 * 1024 * 1024)
    (h : env .reusability = .ok rt)
    (hyes : hasYesWord (clean_response rt) = true)
    (hd : env .description = .ok dt)
    (hc : env .category = .ok ct) :
    generate_content true clen (.ok ()) env =
      (⟨200, [("reusable", .bool true),
              ("title", .str (parse_sales_response (clean_response dt)).1),
              ("description", .str (parse_sales_response (clean_response dt)).2),
              ("category", .str (extractCategory ct).1),
              ("subcategory", .str (extractCategory ct).2),
              ("reason", .str (pyTake 200 (clean_response rt)))]⟩,
       [.reusability, .description, .category]) := by
  unfold generate_content
  rw [if_neg (by simp), if_neg (by omega)]
  simp only [h, hyes, hd, hc, Bool.not_false, Bool.not_true, if_true, if_false]
  rfl

theorem gc_cat_error (clen : Nat) (env : Stage → Except String String)
    (rt dt e : String) (hclen : clen ≤ 5 * 1024 * 1024)
    (h : env .reusability = .ok rt)
    (hyes : hasYesWord (clean_response rt) = true)
    (hd : env .description = .ok dt)
    (hc : env .category = .error e) :
    generate_content true clen (.ok ()) env =
      (⟨200, [("reusable", .bool true),
              ("title", .str (parse_sales_response (clean_response dt)).1),
              ("description", .str (parse_sales_response (clean_response dt)).2),
              ("category", .str "Miscellaneous"),
              ("subcategory", .str "Miscellaneous"),
              ("reason", .str (pyTake 200 (clean_response rt)))]⟩,
       [.reusability, .description, .category]) := by
  unfold generate_content
  rw [if_neg (by simp), if_neg (by omega)]
  simp only [h, hyes, hd, hc, Bool.not_false, Bool.not_true, if_true, if_false]
  rfl

theorem cr_ok (clen : Nat) (t : String) (hclen : clen ≤ 5 * 1024 * 1024) :
    check_reusability true clen (.ok ()) (.ok t) =
      ⟨200, [("reusable", .bool (hasYesWord (clean_response t))),
             ("reason", .str (pyTake 200 (firstLine (clean_response t))))]⟩ := by
  unfold check_reusability
  rw [if_neg (by simp), if_neg (by omega)]

/-- Every category the handler emits belongs to the fixed taxonomy. -/
theorem extractCategory_fst_mem (text : String) :
    (extractCategory text).1 ∈ validCats := by
  show (match labelValue "category:".data text.data with
    | some g => categoryOfGroup g
    | none => "Miscellaneous") ∈ validCats
  cases labelValue "category:".data text.data with
  | none => decide
  | some g =>
    show categoryOfGroup g ∈ validCats
    unfold categoryOfGroup
    by_cases hv : validCats.contains ⟨pyTitle (stripChars g)⟩ = true
    · rw [if_pos hv]
      exact List.mem_of_elem_eq_true hv
    · rw [if_neg hv]
      decide

/-! ### The claims -/

/-- Claim C1, amended.  The `reason` of the `/check-reusability` response and
of the `reusable:false` response of `/generate-content` is the first
newline-delimited line of the cleaned model text truncated to 200 characters
by raw character count; the `reason` of the `reusable:true` response of
`/generate-content` is the ENTIRE cleaned model text truncated to 200
characters, not just its first line. -/
theorem claim_C1 (clen : Nat) (env : Stage → Except String String) (rt : String)
    (hclen : clen ≤ 5 * 1024 * 1024) (hr : env .reusability = .ok rt) :
    ((check_reusability true clen (.ok ()) (.ok rt)).body.lookup "reason"
        = some (.str (pyTake 200 (firstLine (clean_response rt))))) ∧
    (hasYesWord (clean_response rt) = false →
      (generate_content true clen (.ok ()) env).1.body.lookup "reason"
        = some (.str (pyTake 200 (firstLine (clean_response rt))))) ∧
    (hasYesWord (clean_response rt) = true → ∀ dt, env .description = .ok dt →
      (generate_content true clen (.ok ()) env).1.body.lookup "reason"
        = some (.str (pyTake 200 (clean_response rt)))) := by
  refine ⟨?_, fun hyes => ?_, fun hyes dt hd => ?_⟩
  · rw [cr_ok clen rt hclen]
    rfl
  · rw [gc_not_reusable clen env rt hclen hr hyes]
    rfl
  · cases hcat : env .category with
    | ok ct =>
      rw [gc_ok clen env rt dt ct hclen hr hyes hd hcat]
      rfl
    | error e =>
      rw [gc_cat_error clen env rt dt e hclen hr hyes hd hcat]
      rfl

theorem claim_C1_witness :
    ((check_reusability true 0 (.ok ()) (.ok "Yes\nIt still works well.")).body.lookup "reason"
        = some (.str "Yes")) ∧
    ((generate_content true 0 (.ok ()) envNotReusable).1.body.lookup "reason"
        = some (.str "No")) ∧
    ((generate_content true 0 (.ok ()) envReusable).1.body.lookup "reason"
        = some (.str "Yes\nIt still works well.")) := by
  refine ⟨?_, ?_, ?_⟩
  · exact ((claim_C1 0 envReusable "Yes\nIt still works well." (by omega) rfl).1).trans
      (by decide)
  · exact (((claim_C1 0 envNotReusable "No\nThe screen is shattered." (by omega) rfl).2.1)
      (by decide)).trans (by decide)
  · exact ((((claim_C1 0 envReusable "Yes\nIt still works well." (by omega) rfl).2.2)
      (by decide)) "Title: Desk Lamp\nDescription: A nice lamp." rfl).trans (by decide)

/-- Counterexample to claim C1 as stated: for a reusable verdict whose
cleaned text spans two lines, the `reusable:true` response's `reason` is the
whole cleaned text, not its first newline-delimited line truncated to 200. -/
theorem claim_C1_counterexample :
    ((generate_content true 0 (.ok ()) envReusable).1.body.lookup "reason"
        = some (.str "Yes\nIt still works well.")) ∧
    ¬ some (JVal.str "Yes\nIt still works well.")
        = some (.str (pyTake 200 (firstLine
            (clean_response "Yes\nIt still works well.")))) := by decide

/-- Claim C2: a 200 response of `/generate-content` either has exactly the
keys `reusable` (false) and `reason`, or exactly the keys `reusable` (true),
`title`, `description`, `category`, `subcategory`, `reason`, with the
category drawn from the fixed six-element taxonomy. -/
theorem claim_C2 (hasImage : Bool) (clen : Nat) (decodeImg : Except String Unit)
    (env : Stage → Except String String)
    (h : (generate_content hasImage clen decodeImg env).1.status = 200) :
    (∃ r, (generate_content hasImage clen decodeImg env).1.body
        = [("reusable", .bool false), ("reason", .str r)]) ∨
    (∃ t d c sc r, (generate_content hasImage clen decodeImg env).1.body
        = [("reusable", .bool true), ("title", .str t), ("description", .str d),
           ("category", .str c), ("subcategory", .str sc), ("reason", .str r)]
        ∧ c ∈ validCats) := by
  cases hasImage with
  | false =>
    have h400 : (generate_content false clen decodeImg env).1.status = 400 := rfl
    exact absurd (h400.symm.trans h) (by decide)
  | true =>
    by_cases hclen : clen > 5 * 1024 * 1024
    · have h400 : generate_content true clen decodeImg env
          = (⟨400, [("error", .str "Image exceeds 5MB size limit")]⟩, []) := by
        unfold generate_content
        rw [if_neg (by simp), if_pos hclen]
      rw [h400] at h
      exact absurd (show (400 : Nat) = 200 from h) (by decide)
    · have hclen' : clen ≤ 5 * 1024 * 1024 := by omega
      cases decodeImg with
      | error e =>
        have h400 : generate_content true clen (.error e) env
            = (⟨400, [("error", .str ("Invalid image: " ++ e))]⟩, []) := by
          unfold generate_content
          rw [if_neg (by simp), if_neg hclen]
        rw [h400] at h
        exact absurd (show (400 : Nat) = 200 from h) (by decide)
      | ok u =>
        cases u
        cases hre : env .reusability with
        | error e =>
          rw [gc_reuse_error clen env e hclen' hre] at h
          exact absurd (show (500 : Nat) = 200 from h) (by decide)
        | ok rt =>
          cases hyes : hasYesWord (clean_response rt) with
          | false =>
            rw [gc_not_reusable clen env rt hclen' hre hyes]
            exact Or.inl ⟨_, rfl⟩
          | true =>
            cases hdesc : env .description with
            | error e =>
              rw [gc_desc_error clen env rt e hclen' hre hyes hdesc] at h
              exact absurd (show (500 : Nat) = 200 from h) (by decide)
            | ok dt =>
              cases hcat : env .category with
              | ok ct =>
                rw [gc_ok clen env rt dt ct hclen' hre hyes hdesc hcat]
                exact Or.inr ⟨_, _, _, _, _, rfl, extractCategory_fst_mem ct⟩
              | error e =>
                rw [gc_cat_error clen env rt dt e hclen' hre hyes hdesc hcat]
                exact Or.inr ⟨_, _, _, _, _, rfl, by decide⟩

theorem claim_C2_witness :
    (generate_content true 0 (.ok ()) envNotReusable).1.status = 200 ∧
    ((∃ r, (generate_content true 0 (.ok ()) envNotReusable).1.body
        = [("reusable", .bool false), ("reason", .str r)]) ∨
     (∃ t d c sc r, (generate_content true 0 (.ok ()) envNotReusable).1.body
        = [("reusable", .bool true), ("title", .str t), ("description", .str d),
           ("category", .str c), ("subcategory", .str sc), ("reason", .str r)]
        ∧ c ∈ validCats)) :=
  ⟨by decide, claim_C2 true 0 (.ok ()) envNotReusable (by decide)⟩

/-- Claim C3, amended.  The category extractor agrees with the declarative
search for the FIRST position anywhere in the text (not per line) at which
`Category:` matches case-insensitively — a position that can lie inside a
`Subcategory:` label — followed by the title-case taxonomy check with
default `"Miscellaneous"`; and the emitted category always belongs to the
taxonomy. -/
theorem claim_C3 (text : String) :
    (extractCategory text).1 = specCategory text ∧
    (extractCategory text).1 ∈ validCats := by
  constructor
  · have hlv : labelValue "category:".data text.data
        = specLabelValue "category:".data text.data := by
      unfold labelValue specLabelValue
      rw [scanIdx_eq_firstIdx]
    show (match labelValue "category:".data text.data with
      | some g => categoryOfGroup g
      | none => "Miscellaneous") = specCategory text
    rw [hlv]
    rfl
  · exact extractCategory_fst_mem text

/-- Counterexample to claim C3 as stated: the text `"Subcategory: Books"`
has no line labelled `Category:`, so the claim predicts the default
`"Miscellaneous"`; the regex `Category:\s*([^\n]+)` nevertheless matches
inside `Subcategory:` and the handler returns `"Books"`. -/
theorem claim_C3_counterexample :
    (extractCategory "Subcategory: Books").1 = "Books" ∧
    ¬ (extractCategory "Subcategory: Books").1 = "Miscellaneous" := by decide

/-- Claim C4, amended.  The subcategory extractor agrees with the
declarative first-position search followed by trimming and TITLE-CASING the
value (not keeping it verbatim); a value whose lowercasing is
`other`/`others` collapses to `"Miscellaneous"`, any other value is returned
title-cased. -/
theorem claim_C4 :
    (∀ text : String, (extractCategory text).2 = specSubcategory text) ∧
    subcategoryOfGroup "others".data = "Miscellaneous" ∧
    subcategoryOfGroup "OTHER".data = "Miscellaneous" ∧
    subcategoryOfGroup "laptops".data = "Laptops" := by
  refine ⟨fun text => ?_, by decide, by decide, by decide⟩
  have hlv : labelValue "subcategory:".data text.data
      = specLabelValue "subcategory:".data text.data := by
    unfold labelValue specLabelValue
    rw [scanIdx_eq_firstIdx]
  show (match labelValue "subcategory:".data text.data with
    | some g => subcategoryOfGroup g
    | none => "Miscellaneous") = specSubcategory text
  rw [hlv]
  rfl

/-- Counterexample to claim C4 as stated: the subcategory value `laptops` is
not returned verbatim but title-cased to `"Laptops"`. -/
theorem claim_C4_counterexample :
    (extractCategory "Subcategory: laptops").2 = "Laptops" ∧
    ¬ (extractCategory "Subcategory: laptops").2 = "laptops" := by decide

/-- Claim C5, amended.  The cleaner is idempotent on every string that
contains at most one of the two marker characters; in general a deletion can
make two single markers of the other kind adjacent, and a second cleaning
removes the new run. -/
theorem claim_C5 (s : String) (h : '*' ∉ s.data ∨ '_' ∉ s.data) :
    clean_response (clean_response s) = clean_response s := by
  cases h with
  | inl hstar =>
    refine clean_response_idem_single '_' s fun c hc hm => ?_
    have hcm : c = '*' ∨ c = '_' := by simpa [isMarker] using hm
    cases hcm with
    | inl h' => exact absurd (h' ▸ hc) hstar
    | inr h' => exact h'
  | inr hund =>
    refine clean_response_idem_single '*' s fun c hc hm => ?_
    have hcm : c = '*' ∨ c = '_' := by simpa [isMarker] using hm
    cases hcm with
    | inl h' => exact h'
    | inr h' => exact absurd (h' ▸ hc) hund

theorem claim_C5_witness :
    ('*' ∉ "**bold**".data ∨ '_' ∉ "**bold**".data) ∧
    clean_response (clean_response "**bold**") = clean_response "**bold**" :=
  ⟨by decide, claim_C5 "**bold**" (by decide)⟩

/-- Counterexample to claim C5 as stated: `clean("_**_") = "__"` but
`clean("__") = ""`, so `clean ∘ clean ≠ clean` at `"_**_"`. -/
theorem claim_C5_counterexample :
    ¬ clean_response (clean_response "_**_") = clean_response "_**_" := by decide

/-- Claim C6, amended.  The splitter is total and agrees with the
declarative description: split at the FIRST occurrence of `Description:`,
title = segment before it with every `Title:` removed and trimmed,
description = segment after it trimmed; without the marker the title is the
first line truncated to 50 characters AND THEN TRIMMED, and the description
is the entire original text unchanged. -/
theorem claim_C6 :
    (∀ text : String, parse_sales_response text = specSplitTitleDescription text) ∧
    parse_sales_response "Title: Lamp\nDescription: A nice lamp"
      = ("Lamp", "A nice lamp") ∧
    parse_sales_response "just text" = ("just text", "just text") := by
  refine ⟨fun text => ?_, by decide, by decide⟩
  unfold parse_sales_response specSplitTitleDescription
  rw [scanIdx_eq_firstIdx]

/-- Counterexample to claim C6 as stated: on fallback input beginning with
whitespace, the title is trimmed after the 50-character truncation, so it is
not "the first line truncated to 50 characters". -/
theorem claim_C6_counterexample :
    (parse_sales_response " just text").1 = "just text" ∧
    ¬ (parse_sales_response " just text").1 = pyTake 50 (firstLine " just text") := by
  decide

/-- Claim C7: an inference failure at the reusability or description stage
aborts `/generate-content` with a 500 and a stage-specific message, while an
inference failure at the category stage still yields a 200 with default
category and subcategory `"Miscellaneous"`. -/
theorem claim_C7 (clen : Nat) (env : Stage → Except String String)
    (hclen : clen ≤ 5 * 1024 * 1024) :
    (∀ e, env .reusability = .error e →
      (generate_content true clen (.ok ()) env).1
        = ⟨500, [("error", .str ("Reusability check failed: " ++ e))]⟩) ∧
    (∀ rt e, env .reusability = .ok rt → hasYesWord (clean_response rt) = true →
      env .description = .error e →
      (generate_content true clen (.ok ()) env).1
        = ⟨500, [("error", .str ("Description failed: " ++ e))]⟩) ∧
    (∀ rt dt e, env .reusability = .ok rt → hasYesWord (clean_response rt) = true →
      env .description = .ok dt → env .category = .error e →
      (generate_content true clen (.ok ()) env).1.status = 200 ∧
      (generate_content true clen (.ok ()) env).1.body.lookup "category"
        = some (.str "Miscellaneous") ∧
      (generate_content true clen (.ok ()) env).1.body.lookup "subcategory"
        = some (.str "Miscellaneous")) := by
  refine ⟨fun e he => ?_, fun rt e hr hyes hd => ?_, fun rt dt e hr hyes hd hc => ?_⟩
  · rw [gc_reuse_error clen env e hclen he]
  · rw [gc_desc_error clen env rt e hclen hr hyes hd]
  · rw [gc_cat_error clen env rt dt e hclen hr hyes hd hc]
    exact ⟨rfl, rfl, rfl⟩

theorem claim_C7_witness :
    ((generate_content true 0 (.ok ()) envReuseFail).1
        = ⟨500, [("error", .str "Reusability check failed: boom")]⟩) ∧
    ((generate_content true 0 (.ok ()) envDescFail).1
        = ⟨500, [("error", .str "Description failed: boom")]⟩) ∧
    ((generate_content true 0 (.ok ()) envCatFail).1.status = 200 ∧
     (generate_content true 0 (.ok ()) envCatFail).1.body.lookup "category"
        = some (.str "Miscellaneous") ∧
     (generate_content true 0 (.ok ()) envCatFail).1.body.lookup "subcategory"
        = some (.str "Miscellaneous")) := by
  refine ⟨?_, ?_, ?_⟩
  · exact ((claim_C7 0 envReuseFail (by omega)).1 "boom" rfl).trans (by decide)
  · exact ((claim_C7 0 envDescFail (by omega)).2.1 "Yes" "boom" rfl (by decide)
      rfl).trans (by decide)
  · exact (claim_C7 0 envCatFail (by omega)).2.2 "Yes" "Title: T\nDescription: D"
      "boom" rfl (by decide) rfl rfl

/-- Claim C8: the verdict extractor returns true iff the text contains the
whole word `yes`, case-insensitively and with word boundaries; in particular
`yesterday` alone does not match and `Yes,` does. -/
theorem claim_C8 :
    (∀ s : String, hasYesWord s = true ↔ containsWordYes s) ∧
    hasYesWord "yesterday this broke" = false ∧
    hasYesWord "Yes, it works" = true :=
  ⟨hasYesWord_iff_containsWordYes, by decide, by decide⟩

/-- Claim C9: on a false reusability verdict `/generate-content` issues no
description and no category inference call — the call log is exactly the
reusability call. -/
theorem claim_C9 (clen : Nat) (env : Stage → Except String String) (rt : String)
    (hclen : clen ≤ 5 * 1024 * 1024) (hr : env .reusability = .ok rt)
    (hyes : hasYesWord (clean_response rt) = false) :
    (generate_content true clen (.ok ()) env).2 = [.reusability] ∧
    Stage.description ∉ (generate_content true clen (.ok ()) env).2 ∧
    Stage.category ∉ (generate_content true clen (.ok ()) env).2 := by
  rw [gc_not_reusable clen env rt hclen hr hyes]
  exact ⟨rfl, show Stage.description ∉ [Stage.reusability] by decide,
    show Stage.category ∉ [Stage.reusability] by decide⟩

theorem claim_C9_witness :
    (generate_content true 0 (.ok ()) envNotReusable).2 = [.reusability] ∧
    Stage.description ∉ (generate_content true 0 (.ok ()) envNotReusable).2 ∧
    Stage.category ∉ (generate_content true 0 (.ok ()) envNotReusable).2 :=
  claim_C9 0 envNotReusable "No\nThe screen is shattered." (by omega) rfl (by decide)

/-- Claim C10: the category stage parses the raw model text without the
markdown cleaner, so `Category: **Electronics**` fails the taxonomy test and
the response's category defaults to `"Miscellaneous"`, although the cleaned
text would have yielded `"Electronics"`. -/
theorem claim_C10 (clen : Nat) (env : Stage → Except String String) (rt dt : String)
    (hclen : clen ≤ 5 * 1024 * 1024) (hr : env .reusability = .ok rt)
    (hyes : hasYesWord (clean_response rt) = true)
    (hd : env .description = .ok dt)
    (hc : env .category = .ok "Category: **Electronics**") :
    (generate_content true clen (.ok ()) env).1.body.lookup "category"
        = some (.str "Miscellaneous") ∧
    (extractCategory (clean_response "Category: **Electronics**")).1
        = "Electronics" := by
  rw [gc_ok clen env rt dt "Category: **Electronics**" hclen hr hyes hd hc]
  exact ⟨rfl, by decide⟩

theorem claim_C10_witness :
    ((generate_content true 0 (.ok ()) envCatMarkdown).1.body.lookup "category"
        = some (.str "Miscellaneous")) ∧
    (extractCategory (clean_response "Category: **Electronics**")).1
        = "Electronics" :=
  claim_C10 0 envCatMarkdown "Yes" "Title: T\nDescription: D" (by omega) rfl
    (by decide) rfl rfl

end ReShare
